import Mathlib

/-!
Shallow embedding of the CO2 ventilation monitor
(`src/co2-app/src/CO2Monitor.jsx`).  The computational core of the
component — time normalization, trend estimation, projection building,
status classification and the state transitions `addDataPoint`,
`clearData`, `removeLastPoint` — is translated into executable Lean
definitions.  JavaScript numbers are modelled as follows: values that
are always integers in the source (elapsed minutes, parsed times) are
`Int`; values produced by `parseInt`, which can be `NaN`, are
`Option Int` with `none` playing the role of `NaN`; intermediate
rational quantities (the rate and the unrounded minutes-to-target) are
`ℚ`.  `Math.round` is `fun q => ⌊q + 1/2⌋`, which matches JavaScript's
round-half-towards-positive-infinity on finite values.
-/

set_option autoImplicit false

namespace CO2

/-- Numeric value of an ASCII digit character, `'0'` ↦ 0 … `'9'` ↦ 9. -/
def charVal (c : Char) : Int :=
  (c.toNat : Int) - 48

/-- Character class `[0-9]` of the source's time regular expression. -/
def isDigitChar (c : Char) : Bool :=
  48 ≤ c.toNat && c.toNat ≤ 57

/-- Splitting a character list at `':'`, the model of the source's
`split(':')` (every separator produces a new field, so `"a::b"` gives
three fields, matching JavaScript). -/
def splitOnColon : List Char → List (List Char)
  | [] => [[]]
  | c :: rest =>
    let r := splitOnColon rest
    if c = ':' then [] :: r
    else
      match r with
      | p :: ps => (c :: p) :: ps
      | [] => [[c]]

/-- Hour field of the source's time pattern `([01]?[0-9]|2[0-3])`:
one digit, or two digits whose first is `0`/`1`, or `2` followed by
`0`–`3`. -/
def hourOK : List Char → Bool
  | [d] => isDigitChar d
  | [d1, d2] =>
    ((d1 = '0' || d1 = '1') && isDigitChar d2) ||
      (d1 = '2' && (48 ≤ d2.toNat && d2.toNat ≤ 51))
  | _ => false

/-- Minute field of the source's time pattern `([0-5][0-9])`. -/
def minuteOK : List Char → Bool
  | [d1, d2] => (48 ≤ d1.toNat && d1.toNat ≤ 53) && isDigitChar d2
  | _ => false

/-- The anchored regular expression
`/^([01]?[0-9]|2[0-3]):([0-5][0-9])$/` used by `addDataPoint` to
validate the time input: the whole string must be an hour field, a
colon and a minute field.  Because the fields are digit-only, matching
the anchored regex is the same as splitting at `':'` and checking the
two resulting fields. -/
def timePatternTest (s : String) : Bool :=
  match splitOnColon s.toList with
  | [h, m] => hourOK h && minuteOK m
  | _ => false

/-- Value of a digit string, the behaviour of JavaScript `Number` on
the digit-only fields produced by a validated time string. -/
def digitsVal (l : List Char) : Int :=
  l.foldl (fun a c => a * 10 + charVal c) 0

/-- The computation `hours * 60 + minutes` after
`currentTime.split(':').map(Number)` (source lines 29–30 and 37–38).
In the source this parse is only ever applied to strings that passed
`timePatternTest` (the input is validated before being stored, and
stored times are re-parsed later), where the two fields are digit
strings and `Number` returns their value; on other shapes this model
returns a junk value `0` that is never relied upon. -/
def timeTotalMinutes (s : String) : Int :=
  match splitOnColon s.toList with
  | h :: m :: _ => digitsVal h * 60 + digitsVal m
  | _ => 0

/-- JavaScript `Math.round` on a finite value: half-integers round
towards positive infinity. -/
def jsRound (q : ℚ) : Int :=
  ⌊q + 1 / 2⌋

/-- A measured point as stored in `measuredPoints`: the raw wall-clock
string, the elapsed minutes (always an actual integer in the source)
and the `parseInt`ed concentration, where `none` models `NaN`.  The
constant `type: 'measured'` tag is carried by the Lean type instead of
a field. -/
structure Point where
  time : String
  minutes : Int
  co2 : Option Int
  deriving Repr, DecidableEq

/-- A projected point as stored in `projectedPoints`; both coordinates
can be `NaN` (modelled by `none`) when a `NaN` concentration
contaminates the arithmetic.  The constant `type: 'projected'` tag is
carried by the Lean type instead of a field. -/
structure ProjPoint where
  minutes : Option Int
  co2 : Option Int
  deriving Repr, DecidableEq

/-- `buildProjectionSegment` (source lines 76–115): from the last two
measured points, if the interval is non-degenerate, the rate negative
and the rounded minutes-to-target positive, produce exactly the
two-point anchored segment ending at 550 ppm; otherwise produce the
empty list.  When either of the last two concentrations is `NaN`
(`none`), the JavaScript comparisons `rate >= 0` and
`minutesToIdeal <= 0` are both false (`NaN` compares false), so the
source falls through and returns two points whose contaminated
coordinates are `NaN`; the final match arm reproduces that. -/
def buildProjectionSegment (measuredData : List Point) : List ProjPoint :=
  if measuredData.length < 2 then []
  else
    match measuredData.drop (measuredData.length - 2) with
    | [prevPoint, currentPoint] =>
      let timeDiff := currentPoint.minutes - prevPoint.minutes
      if timeDiff = 0 then []
      else
        match prevPoint.co2, currentPoint.co2 with
        | some prevCo2, some currCo2 =>
          let rate : ℚ := ((currCo2 : ℚ) - (prevCo2 : ℚ)) / (timeDiff : ℚ)
          if 0 ≤ rate then []
          else
            let minutesToIdeal : Int := jsRound ((550 - (currCo2 : ℚ)) / rate)
            if minutesToIdeal ≤ 0 then []
            else
              [{ minutes := some currentPoint.minutes, co2 := some currCo2 },
               { minutes := some (currentPoint.minutes + minutesToIdeal),
                 co2 := some 550 }]
        | _, _ =>
          [{ minutes := some currentPoint.minutes, co2 := currentPoint.co2 },
           { minutes := none, co2 := some 550 }]
    | _ => []

/-- Value of JavaScript `parseInt` applied to a leading run of decimal
digits after an optional sign: `none` models `NaN`, returned when no
leading digit exists (for example on a non-numeric string such as
`"abc"`).  The further `parseInt` features (whitespace trimming, radix
prefixes) are irrelevant to the strings reaching it here. -/
def digitsLeadVal (l : List Char) : Option Int :=
  let ds := l.takeWhile isDigitChar
  if ds.isEmpty then none else some (digitsVal ds)

/-- JavaScript `parseInt(currentCO2)` as used on source line 52. -/
def parseIntJS (s : String) : Option Int :=
  match s.toList with
  | '-' :: rest => (digitsLeadVal rest).map (fun v => -v)
  | '+' :: rest => digitsLeadVal rest
  | l => digitsLeadVal l

/-- Elapsed-minutes normalization, source lines 29–47: parse the new
wall-clock string; the first measurement defines the origin (elapsed
0); later measurements measure from the first one's wall-clock
minutes, adding `24 * 60` after a single midnight crossing. -/
def normalize (currentTime : String) (measuredPoints : List Point) : Int :=
  let totalMinutes := timeTotalMinutes currentTime
  match measuredPoints with
  | [] => 0
  | firstPoint :: _ =>
    let firstPointMinutes := timeTotalMinutes firstPoint.time
    let elapsed := totalMinutes - firstPointMinutes
    if elapsed < 0 then elapsed + 24 * 60 else elapsed

/-- The component state that the claims are about: the measured and the
projected series.  The two input fields are modelled as the arguments
of `addDataPoint` (the source clears them after every submission). -/
structure AppState where
  measuredPoints : List Point
  projectedPoints : List ProjPoint
  deriving Repr, DecidableEq

/-- `addDataPoint` (source lines 19–71): reject when either input is
empty or the time fails the pattern test, leaving the state untouched;
otherwise append the new point (elapsed minutes via `normalize`,
concentration via `parseInt`) and replace the projected series by the
freshly built segment.  When the new point is the very first one no
projection is built (the source's line 46 clearing of the projected
series happens only on the nonempty branch, and the length-≥-2 rebuild
then always overwrites it, so with an empty prior series the stored
projection is left as it was). -/
def addDataPoint (st : AppState) (currentTime currentCO2 : String) : AppState :=
  if currentTime = "" ∨ currentCO2 = "" then st
  else if timePatternTest currentTime = false then st
  else
    let elapsedMinutes := normalize currentTime st.measuredPoints
    let newPoint : Point :=
      { time := currentTime, minutes := elapsedMinutes,
        co2 := parseIntJS currentCO2 }
    let updatedMeasured := st.measuredPoints ++ [newPoint]
    let projectedAfterClear :=
      match st.measuredPoints with
      | [] => st.projectedPoints
      | _ :: _ => []
    { measuredPoints := updatedMeasured,
      projectedPoints :=
        if 2 ≤ updatedMeasured.length then buildProjectionSegment updatedMeasured
        else projectedAfterClear }

/-- `clearData` (source lines 143–146): reset both series. -/
def clearData (_st : AppState) : AppState :=
  { measuredPoints := [], projectedPoints := [] }

/-- `removeLastPoint` (source lines 148–161): drop the last measured
point (`slice(0, -1)`) and rebuild the projection from what remains,
or clear it when fewer than two points remain; a no-op on an empty
series. -/
def removeLastPoint (st : AppState) : AppState :=
  match st.measuredPoints with
  | [] => st
  | _ :: _ =>
    let updatedMeasured := st.measuredPoints.dropLast
    { measuredPoints := updatedMeasured,
      projectedPoints :=
        if 2 ≤ updatedMeasured.length then buildProjectionSegment updatedMeasured
        else [] }

/-- The `timeToIdeal` / `currentRate` pair computed on source lines
179–190: defined (as `some`) exactly when at least two measurements
exist, the latest concentration is an actual number above 550 and the
two-point slope is negative; then `timeToIdeal` is the rounded
minutes-to-target and `currentRate` the positive ppm-per-hour rate.
The slope division is exercised only on non-degenerate intervals in
the theorems below (on a degenerate interval the JavaScript slope is
an infinity or `NaN`, which this rational-valued model does not
represent). -/
def timeToIdealAndRate (measuredPoints : List Point) :
    Option Int × Option ℚ :=
  match measuredPoints.drop (measuredPoints.length - 2) with
  | [secondLast, latest] =>
    match latest.co2, secondLast.co2 with
    | some latestCo2, some secondCo2 =>
      if 550 < latestCo2 then
        let slope : ℚ :=
          ((latestCo2 : ℚ) - (secondCo2 : ℚ)) /
            ((latest.minutes : ℚ) - (secondLast.minutes : ℚ))
        if slope < 0 then
          (some (jsRound ((550 - (latestCo2 : ℚ)) / slope)),
           some (-slope * 60))
        else (none, none)
      else (none, none)
    | _, _ => (none, none)
  | _ => (none, none)

/-- The record returned by `getCO2Status` (source lines 168–173). -/
structure Status where
  text : String
  color : String
  bg : String
  deriving Repr, DecidableEq

/-- `getCO2Status` (source lines 168–173): the fixed-threshold status
classifier, a pure total function of the concentration. -/
def getCO2Status (co2 : ℚ) : Status :=
  if co2 ≤ 550 then ⟨"Ideal", "text-green-400", "bg-green-900/50"⟩
  else if co2 ≤ 800 then ⟨"Good", "text-blue-400", "bg-blue-900/50"⟩
  else if co2 ≤ 1000 then
    ⟨"Concerning", "text-yellow-400", "bg-yellow-900/50"⟩
  else ⟨"Poor", "text-red-400", "bg-red-900/50"⟩

/-- Modelled from the spec: the strict two-digit 24-hour pattern the
spec describes for time validation (exactly two hour digits `00`–`23`,
a colon, and two minute digits `00`–`59`).  This follows the spec's
words, to be compared with the source's `timePatternTest`, which also
admits single-digit hours. -/
def specStrictTimePattern (s : String) : Bool :=
  match s.toList with
  | [h1, h2, ':', m1, m2] =>
    (((h1 = '0' || h1 = '1') && isDigitChar h2) ||
      (h1 = '2' && (48 ≤ h2.toNat && h2.toNat ≤ 51))) &&
      ((48 ≤ m1.toNat && m1.toNat ≤ 53) && isDigitChar m2)
  | _ => false

/-- States reachable from the initial empty state by any sequence of
submissions (valid or not), resets and removals. -/
inductive Reachable : AppState → Prop where
  | start : Reachable { measuredPoints := [], projectedPoints := [] }
  | add (st : AppState) (t c : String) :
      Reachable st → Reachable (addDataPoint st t c)
  | clear (st : AppState) : Reachable st → Reachable (clearData st)
  | removeLast (st : AppState) : Reachable st → Reachable (removeLastPoint st)

/-- Rounding commutes with adding an integer: the code's
`currentPoint.minutes + Math.round(minutesToTarget)` and the spec's
`round(latest.elapsedMinutes + minutesToTarget)` agree. -/
theorem jsRound_intCast_add (n : Int) (q : ℚ) :
    jsRound ((n : ℚ) + q) = n + jsRound q := by
  unfold jsRound
  rw [add_assoc, Int.floor_int_add]

/-- Unfolding of `buildProjectionSegment` on a two-element list with
actual (non-`NaN`) concentrations. -/
theorem buildProjectionSegment_pair (p c : Point) (pc cc : Int)
    (hp : p.co2 = some pc) (hc : c.co2 = some cc) :
    buildProjectionSegment [p, c] =
      if c.minutes - p.minutes = 0 then []
      else if 0 ≤ ((cc : ℚ) - pc) / ((c.minutes - p.minutes : Int) : ℚ) then []
      else if jsRound ((550 - (cc : ℚ)) /
          (((cc : ℚ) - pc) / ((c.minutes - p.minutes : Int) : ℚ))) ≤ 0 then []
      else
        [⟨some c.minutes, some cc⟩,
         ⟨some (c.minutes + jsRound ((550 - (cc : ℚ)) /
            (((cc : ℚ) - pc) / ((c.minutes - p.minutes : Int) : ℚ)))),
          some 550⟩] := by
  simp only [buildProjectionSegment, List.length_cons, List.length_nil]
  norm_num [hp, hc]

/-- C1 counterexample: a pair of measurements with a negative rate, a
non-degenerate interval and a strictly positive
`minutesToTarget = (550 − 551)/(−449) = 1/449`, for which the claim
demands a two-point projection; the code rounds `minutesToTarget` to 0
before its positivity check and returns the empty sequence instead. -/
theorem c1_counterexample :
    (0 : Int) ≠ 1 ∧
    ((551 : ℚ) - 1000) / ((1 : ℚ) - 0) < 0 ∧
    0 < (550 - (551 : ℚ)) / (((551 : ℚ) - 1000) / ((1 : ℚ) - 0)) ∧
    buildProjectionSegment [⟨"00:00", 0, some 1000⟩, ⟨"00:01", 1, some 551⟩] =
      [] := by
  refine ⟨by decide, by norm_num, by norm_num, ?_⟩
  norm_num [buildProjectionSegment, jsRound]

/-- C1 (amended): for every pair of measurements (previous, latest)
with a non-degenerate interval whose rate
`r = (latest.co2 − previous.co2)/(latest.minutes − previous.minutes)`
is negative and whose ROUNDED minutes-to-target
`round((550 − latest.co2)/r)` is positive, `buildProjectionSegment`
returns exactly two projected points: the first equal to the latest
measurement's coordinates and the second equal to
`{round(latest.minutes + minutesToTarget), 550}`. -/
theorem c1_amended (t₁ t₂ : String) (m₁ m₂ c₁ c₂ : Int)
    (hne : m₁ ≠ m₂)
    (hrate : ((c₂ : ℚ) - c₁) / ((m₂ : ℚ) - m₁) < 0)
    (hpos : 0 < jsRound ((550 - (c₂ : ℚ)) /
      (((c₂ : ℚ) - c₁) / ((m₂ : ℚ) - m₁)))) :
    buildProjectionSegment [⟨t₁, m₁, some c₁⟩, ⟨t₂, m₂, some c₂⟩] =
      [⟨some m₂, some c₂⟩,
       ⟨some (jsRound ((m₂ : ℚ) + (550 - (c₂ : ℚ)) /
          (((c₂ : ℚ) - c₁) / ((m₂ : ℚ) - m₁)))), some 550⟩] := by
  have hcast : ((m₂ - m₁ : Int) : ℚ) = (m₂ : ℚ) - m₁ := by push_cast; ring
  rw [buildProjectionSegment_pair ⟨t₁, m₁, some c₁⟩ ⟨t₂, m₂, some c₂⟩ c₁ c₂ rfl rfl]
  simp only [hcast]
  rw [if_neg (by omega), if_neg (by exact not_le.mpr hrate),
    if_neg (by exact not_le.mpr hpos), jsRound_intCast_add]

/-- C1 amended witness: the amended theorem applied to the readings
(t=0, 1000 ppm) and (t=10, 800 ppm). -/
theorem c1_amended_witness :
    (0 : Int) ≠ 10 ∧
    ((800 : ℚ) - 1000) / ((10 : ℚ) - 0) < 0 ∧
    0 < jsRound ((550 - (800 : ℚ)) / (((800 : ℚ) - 1000) / ((10 : ℚ) - 0))) ∧
    buildProjectionSegment [⟨"00:00", 0, some 1000⟩, ⟨"00:10", 10, some 800⟩] =
      [⟨some 10, some 800⟩,
       ⟨some (jsRound ((10 : ℚ) + (550 - (800 : ℚ)) /
          (((800 : ℚ) - 1000) / ((10 : ℚ) - 0)))), some 550⟩] :=
  ⟨by decide, by norm_num, by norm_num [jsRound],
    c1_amended "00:00" "00:10" 0 10 1000 800 (by decide) (by norm_num)
      (by norm_num [jsRound])⟩

/-- C2 counterexample: on the readings (t=0, 1000 ppm) and
(t=10, 800 ppm) the unrounded minutes-to-target is 12.5 (not the 22.5
the claim states) and the projection ends at minute 23, so the claimed
output ending at minute 33 is not what the code produces. -/
theorem c2_counterexample :
    (550 - (800 : ℚ)) / (((800 : ℚ) - 1000) / ((10 : ℚ) - 0)) ≠ 45 / 2 ∧
    buildProjectionSegment [⟨"00:00", 0, some 1000⟩, ⟨"00:10", 10, some 800⟩] ≠
      [⟨some 10, some 800⟩, ⟨some 33, some 550⟩] := by
  constructor
  · norm_num
  · norm_num [buildProjectionSegment, jsRound]

/-- C2 (amended): for the readings (t=0, 1000 ppm) and (t=10, 800 ppm)
with target 550, the estimated rate is −20 ppm/min, the unrounded
minutes-to-target is 12.5 (rounded by the code to 13), and
`buildProjectionSegment` returns exactly the two points
{elapsedMinutes 10, 800 ppm} and {elapsedMinutes 23, 550 ppm}. -/
theorem c2_amended :
    ((800 : ℚ) - 1000) / ((10 : ℚ) - 0) = -20 ∧
    (550 - (800 : ℚ)) / (((800 : ℚ) - 1000) / ((10 : ℚ) - 0)) = 25 / 2 ∧
    buildProjectionSegment [⟨"00:00", 0, some 1000⟩, ⟨"00:10", 10, some 800⟩] =
      [⟨some 10, some 800⟩, ⟨some 23, some 550⟩] := by
  refine ⟨by norm_num, by norm_num, ?_⟩
  norm_num [buildProjectionSegment, jsRound]

/-- C3 counterexample: a non-degenerate decreasing pair with strictly
positive minutes-to-target — so that none of the claim's three
empty-sequence conditions holds — on which `buildProjectionSegment`
nevertheless returns the empty sequence (its check is on the rounded
minutes-to-target). -/
theorem c3_counterexample :
    (0 : Int) ≠ 1 ∧
    ¬ (0 : ℚ) ≤ ((551 : ℚ) - 1000) / ((1 : ℚ) - 0) ∧
    ¬ (550 - (551 : ℚ)) / (((551 : ℚ) - 1000) / ((1 : ℚ) - 0)) ≤ 0 ∧
    buildProjectionSegment [⟨"00:10", 0, some 1000⟩, ⟨"00:11", 1, some 551⟩] =
      [] := by
  refine ⟨by decide, by norm_num, by norm_num, ?_⟩
  norm_num [buildProjectionSegment, jsRound]

/-- C3 (amended): for every pair of measurements (previous, latest),
`buildProjectionSegment` returns the empty sequence if and only if the
interval is degenerate, or the rate is ≥ 0, or the ROUNDED
minutes-to-target `round((550 − latest.co2)/rate)` is ≤ 0; in every
case it returns a value (no crash). -/
theorem c3_amended (t₁ t₂ : String) (m₁ m₂ c₁ c₂ : Int) :
    buildProjectionSegment [⟨t₁, m₁, some c₁⟩, ⟨t₂, m₂, some c₂⟩] = [] ↔
      (m₁ = m₂ ∨
        0 ≤ ((c₂ : ℚ) - c₁) / ((m₂ : ℚ) - m₁) ∨
        jsRound ((550 - (c₂ : ℚ)) /
          (((c₂ : ℚ) - c₁) / ((m₂ : ℚ) - m₁))) ≤ 0) := by
  have hcast : ((m₂ - m₁ : Int) : ℚ) = (m₂ : ℚ) - m₁ := by push_cast; ring
  rw [buildProjectionSegment_pair ⟨t₁, m₁, some c₁⟩ ⟨t₂, m₂, some c₂⟩ c₁ c₂ rfl rfl]
  simp only [hcast]
  by_cases hm : m₂ - m₁ = 0
  · rw [if_pos hm]
    exact ⟨fun _ => Or.inl (by omega), fun _ => rfl⟩
  · rw [if_neg hm]
    by_cases hr : 0 ≤ ((c₂ : ℚ) - c₁) / ((m₂ : ℚ) - m₁)
    · rw [if_pos hr]
      exact ⟨fun _ => Or.inr (Or.inl hr), fun _ => rfl⟩
    · rw [if_neg hr]
      by_cases hj : jsRound ((550 - (c₂ : ℚ)) /
          (((c₂ : ℚ) - c₁) / ((m₂ : ℚ) - m₁))) ≤ 0
      · rw [if_pos hj]
        exact ⟨fun _ => Or.inr (Or.inr hj), fun _ => rfl⟩
      · rw [if_neg hj]
        constructor
        · intro h
          exact absurd h (by simp)
        · rintro (h | h | h)
          · exact absurd h (by omega)
          · exact absurd h hr
          · exact absurd h hj

/-- C4: for every wall-clock string accepted by the time pattern,
`normalize` returns 0 on an empty prior sequence; on a nonempty prior
sequence it returns `delta = thisTotalMinutes − originTotalMinutes`
against the first measurement's wall-clock minutes, with 1440 added
when `delta` is negative; in particular origin "23:50" followed by
"00:10" yields elapsed 20. -/
theorem c4 :
    (∀ (s : String), timePatternTest s = true → normalize s [] = 0) ∧
    (∀ (s : String) (first : Point) (rest : List Point),
      timePatternTest s = true →
      normalize s (first :: rest) =
        (if timeTotalMinutes s - timeTotalMinutes first.time < 0
         then timeTotalMinutes s - timeTotalMinutes first.time + 1440
         else timeTotalMinutes s - timeTotalMinutes first.time)) ∧
    normalize "00:10" [⟨"23:50", 0, some 900⟩] = 20 := by
  refine ⟨fun s _ => rfl, fun s first rest _ => ?_, by decide⟩
  simp only [normalize]
  norm_num

/-- C4 witness: the two universal parts applied at concrete valid
times, the midnight-crossing one at origin "23:50" and reading
"00:10". -/
theorem c4_witness :
    timePatternTest "10:00" = true ∧
    normalize "10:00" [] = 0 ∧
    timePatternTest "00:10" = true ∧
    normalize "00:10" [⟨"23:50", 0, some 900⟩] =
      (if timeTotalMinutes "00:10" - timeTotalMinutes "23:50" < 0
       then timeTotalMinutes "00:10" - timeTotalMinutes "23:50" + 1440
       else timeTotalMinutes "00:10" - timeTotalMinutes "23:50") :=
  ⟨by decide, c4.1 "10:00" (by decide), by decide,
    c4.2.1 "00:10" ⟨"23:50", 0, some 900⟩ [] (by decide)⟩

/-- C7: `getCO2Status` is a pure total function with thresholds
inclusive on the lower side of each tier: ≤ 550 is Ideal, (550, 800]
is Good, (800, 1000] is Concerning, above 1000 is Poor; in particular
550 ↦ Ideal, 551 ↦ Good, 1000 ↦ Concerning, 1001 ↦ Poor. -/
theorem c7 :
    (∀ (c : ℚ),
      (c ≤ 550 → (getCO2Status c).text = "Ideal") ∧
      (550 < c → c ≤ 800 → (getCO2Status c).text = "Good") ∧
      (800 < c → c ≤ 1000 → (getCO2Status c).text = "Concerning") ∧
      (1000 < c → (getCO2Status c).text = "Poor")) ∧
    (getCO2Status 550).text = "Ideal" ∧
    (getCO2Status 551).text = "Good" ∧
    (getCO2Status 1000).text = "Concerning" ∧
    (getCO2Status 1001).text = "Poor" := by
  refine ⟨fun c => ?_, by norm_num [getCO2Status], by norm_num [getCO2Status],
    by norm_num [getCO2Status], by norm_num [getCO2Status]⟩
  unfold getCO2Status
  refine ⟨fun h => ?_, fun h1 h2 => ?_, fun h1 h2 => ?_, fun h => ?_⟩
  · rw [if_pos h]
  · rw [if_neg (by linarith), if_pos h2]
  · rw [if_neg (by linarith), if_neg (by linarith), if_pos h2]
  · rw [if_neg (by linarith), if_neg (by linarith), if_neg (by linarith)]

/-- C7 witness: the universal part applied at concentration 700, in
the Good tier. -/
theorem c7_witness : (getCO2Status 700).text = "Good" :=
  (c7.1 700).2.1 (by norm_num) (by norm_num)

/-- C6: with fewer than two measurements the time-to-ideal estimate is
`none`; with at least two measurements whose last two (previous,
latest) have actual concentrations and a non-degenerate interval (the
claim's rate presupposes one), the estimate is `none` exactly when the
latest concentration is ≤ 550 or the rate is ≥ 0, and otherwise it
equals `round((550 − latest.co2)/rate)` with the displayed rate
`−rate·60` ppm/hour, agreeing with the target-time calculation of
`buildProjectionSegment` on the same two points whenever the latter
projects. -/
theorem c6 :
    (∀ (l : List Point), l.length < 2 → (timeToIdealAndRate l).1 = none) ∧
    (∀ (l : List Point) (sl latest : Point) (sc lc : Int),
      l.drop (l.length - 2) = [sl, latest] →
      sl.co2 = some sc → latest.co2 = some lc →
      sl.minutes ≠ latest.minutes →
      (((timeToIdealAndRate l).1 = none ↔
        (lc ≤ 550 ∨
          0 ≤ ((lc : ℚ) - sc) / ((latest.minutes : ℚ) - sl.minutes))) ∧
       (550 < lc →
        ((lc : ℚ) - sc) / ((latest.minutes : ℚ) - sl.minutes) < 0 →
        ((timeToIdealAndRate l).1 =
            some (jsRound ((550 - (lc : ℚ)) /
              (((lc : ℚ) - sc) / ((latest.minutes : ℚ) - sl.minutes)))) ∧
         (timeToIdealAndRate l).2 =
            some (-(((lc : ℚ) - sc) /
              ((latest.minutes : ℚ) - sl.minutes)) * 60) ∧
         (0 < jsRound ((550 - (lc : ℚ)) /
              (((lc : ℚ) - sc) / ((latest.minutes : ℚ) - sl.minutes))) →
          buildProjectionSegment [sl, latest] =
            [⟨some latest.minutes, some lc⟩,
             ⟨some (latest.minutes + jsRound ((550 - (lc : ℚ)) /
                (((lc : ℚ) - sc) /
                  ((latest.minutes : ℚ) - sl.minutes)))), some 550⟩]))))) := by
  constructor
  · intro l hl
    match l, hl with
    | [], _ => rfl
    | [a], _ => rfl
  · intro l sl latest sc lc hdrop hsc hlc hne
    have hcast : ((latest.minutes - sl.minutes : Int) : ℚ) =
        (latest.minutes : ℚ) - sl.minutes := by push_cast; ring
    set rate : ℚ :=
      ((lc : ℚ) - sc) / ((latest.minutes : ℚ) - sl.minutes) with hratedef
    simp only [timeToIdealAndRate, hdrop, hsc, hlc]
    constructor
    · by_cases h5 : 550 < lc
      · rw [if_pos h5]
        by_cases hr : rate < 0
        · rw [if_pos hr]
          simp only [reduceCtorEq, false_iff]
          push_neg
          exact ⟨by omega, hr⟩
        · rw [if_neg hr]
          simp only [true_iff]
          exact Or.inr (not_lt.mp hr)
      · rw [if_neg h5]
        simp only [true_iff]
        exact Or.inl (by omega)
    · intro h5 hr
      rw [if_pos h5, if_pos hr]
      refine ⟨rfl, rfl, fun hpos => ?_⟩
      rw [buildProjectionSegment_pair sl latest sc lc hsc hlc]
      rw [if_neg (by omega), hcast, if_neg (not_le.mpr hr),
        if_neg (not_le.mpr hpos)]

/-- C6 witness: the short-list part at the empty list and the main
part at the readings (t=0, 1000 ppm), (t=10, 800 ppm): the estimate is
13 minutes at 1200 ppm/hour and the projection ends at minute
10 + 13. -/
theorem c6_witness :
    (timeToIdealAndRate ([] : List Point)).1 = none ∧
    ((timeToIdealAndRate [⟨"00:00", 0, some 1000⟩, ⟨"00:10", 10, some 800⟩]).1 =
        some (jsRound ((550 - (800 : ℚ)) /
          (((800 : ℚ) - 1000) / ((10 : ℚ) - 0)))) ∧
      (timeToIdealAndRate [⟨"00:00", 0, some 1000⟩, ⟨"00:10", 10, some 800⟩]).2 =
        some (-(((800 : ℚ) - 1000) / ((10 : ℚ) - 0)) * 60) ∧
      (0 < jsRound ((550 - (800 : ℚ)) / (((800 : ℚ) - 1000) / ((10 : ℚ) - 0))) →
        buildProjectionSegment [⟨"00:00", 0, some 1000⟩, ⟨"00:10", 10, some 800⟩] =
          [⟨some 10, some 800⟩,
           ⟨some (10 + jsRound ((550 - (800 : ℚ)) /
              (((800 : ℚ) - 1000) / ((10 : ℚ) - 0)))), some 550⟩])) :=
  ⟨c6.1 [] (by decide),
    (c6.2 [⟨"00:00", 0, some 1000⟩, ⟨"00:10", 10, some 800⟩]
      ⟨"00:00", 0, some 1000⟩ ⟨"00:10", 10, some 800⟩ 1000 800
      (by decide) rfl rfl (by decide)).2 (by norm_num) (by norm_num)⟩

/-- Below the length-2 threshold the projection builder yields the
empty sequence. -/
theorem buildProjectionSegment_short (l : List Point) (h : l.length < 2) :
    buildProjectionSegment l = [] := by
  unfold buildProjectionSegment
  rw [if_pos h]

/-- A list whose `drop (length − 2)` is a pair has length at least
two. -/
theorem two_le_length_of_drop_eq_pair (l : List Point) (p c : Point)
    (h : l.drop (l.length - 2) = [p, c]) : 2 ≤ l.length := by
  have hlen := congrArg List.length h
  rw [List.length_drop] at hlen
  simp only [List.length_cons, List.length_nil] at hlen
  omega

/-- The projection builder reads nothing but the final two points of
its input. -/
theorem buildProjectionSegment_eq_pair_of_drop (l : List Point) (p c : Point)
    (h : l.drop (l.length - 2) = [p, c]) :
    buildProjectionSegment l = buildProjectionSegment [p, c] := by
  have h2 := two_le_length_of_drop_eq_pair l p c h
  have hpair : ([p, c] : List Point).drop (([p, c] : List Point).length - 2) =
      [p, c] := rfl
  conv_lhs => rw [buildProjectionSegment.eq_def]
  conv_rhs => rw [buildProjectionSegment.eq_def]
  rw [h, hpair, if_neg (by omega), if_neg (by norm_num)]

/-- C10: `removeLastPoint` on a nonempty sequence removes exactly the
last measurement, leaves the earlier ones unchanged and sets the
projected sequence to the projection rebuilt from the remaining
measurements (which is empty when fewer than two remain); on an empty
sequence it changes nothing. -/
theorem c10 (st : AppState) :
    (st.measuredPoints = [] → removeLastPoint st = st) ∧
    (∀ (l : List Point) (x : Point), st.measuredPoints = l ++ [x] →
      (removeLastPoint st).measuredPoints = l ∧
      (removeLastPoint st).projectedPoints = buildProjectionSegment l ∧
      (l.length < 2 → (removeLastPoint st).projectedPoints = [])) := by
  rcases st with ⟨mp, pp⟩
  constructor
  · intro h
    simp only at h
    subst h
    rfl
  · intro l x h
    simp only at h
    subst h
    rcases l with _ | ⟨a, l'⟩
    · exact ⟨rfl, rfl, fun _ => rfl⟩
    · have hred : removeLastPoint ⟨(a :: l') ++ [x], pp⟩ =
          ⟨((a :: l') ++ [x]).dropLast,
            if 2 ≤ ((a :: l') ++ [x]).dropLast.length
            then buildProjectionSegment ((a :: l') ++ [x]).dropLast
            else []⟩ := rfl
      rw [hred, List.dropLast_concat]
      by_cases h2 : 2 ≤ (a :: l').length
      · rw [if_pos h2]
        exact ⟨rfl, rfl, fun hh => absurd h2 (by omega)⟩
      · rw [if_neg h2]
        exact ⟨rfl, (buildProjectionSegment_short _ (by omega)).symm, fun _ => rfl⟩

/-- C10 witness: the theorem applied to a three-measurement state with
a stale projection: the result keeps the first two measurements and
rebuilds the projection from them. -/
theorem c10_witness :
    (removeLastPoint ⟨[⟨"00:00", 0, some 1000⟩, ⟨"00:10", 10, some 800⟩,
        ⟨"00:20", 20, some 700⟩], []⟩).measuredPoints =
      [⟨"00:00", 0, some 1000⟩, ⟨"00:10", 10, some 800⟩] ∧
    (removeLastPoint ⟨[⟨"00:00", 0, some 1000⟩, ⟨"00:10", 10, some 800⟩,
        ⟨"00:20", 20, some 700⟩], []⟩).projectedPoints =
      buildProjectionSegment [⟨"00:00", 0, some 1000⟩, ⟨"00:10", 10, some 800⟩] :=
  ⟨((c10 _).2 [⟨"00:00", 0, some 1000⟩, ⟨"00:10", 10, some 800⟩]
      ⟨"00:20", 20, some 700⟩ rfl).1,
   ((c10 _).2 [⟨"00:00", 0, some 1000⟩, ⟨"00:10", 10, some 800⟩]
      ⟨"00:20", 20, some 700⟩ rfl).2.1⟩

/-- C8: the projected sequence depends only on the two most recent
measurements — any two measurement sequences with the same final two
points produce identical projections — and an accepted submission onto
a nonempty sequence computes the stored projection independently of
the previously stored projected points. -/
theorem c8 :
    (∀ (l₁ l₂ : List Point) (p c : Point),
      l₁.drop (l₁.length - 2) = [p, c] →
      l₂.drop (l₂.length - 2) = [p, c] →
      buildProjectionSegment l₁ = buildProjectionSegment l₂) ∧
    (∀ (m : List Point) (proj₁ proj₂ : List ProjPoint) (t c : String),
      m ≠ [] → ¬(t = "" ∨ c = "") → timePatternTest t = true →
      (addDataPoint ⟨m, proj₁⟩ t c).projectedPoints =
        (addDataPoint ⟨m, proj₂⟩ t c).projectedPoints) := by
  constructor
  · intro l₁ l₂ p c h₁ h₂
    rw [buildProjectionSegment_eq_pair_of_drop l₁ p c h₁,
      buildProjectionSegment_eq_pair_of_drop l₂ p c h₂]
  · intro m proj₁ proj₂ t c hm htc hpat
    have hnotfalse : ¬ timePatternTest t = false := by simp [hpat]
    rcases m with _ | ⟨a, m'⟩
    · exact absurd rfl hm
    · simp only [addDataPoint, if_neg htc, if_neg hnotfalse]

/-- C8 witness: the first part applied to a three-measurement sequence
and its final pair; the second part applied to two states that differ
only in a stale stored projection. -/
theorem c8_witness :
    buildProjectionSegment
        [⟨"00:00", 0, some 2000⟩, ⟨"00:05", 5, some 1000⟩, ⟨"00:10", 10, some 800⟩] =
      buildProjectionSegment [⟨"00:05", 5, some 1000⟩, ⟨"00:10", 10, some 800⟩] ∧
    (addDataPoint ⟨[⟨"00:00", 0, some 1000⟩], []⟩ "00:10" "800").projectedPoints =
      (addDataPoint ⟨[⟨"00:00", 0, some 1000⟩], [⟨some 99, some 99⟩]⟩
        "00:10" "800").projectedPoints :=
  ⟨c8.1 _ _ ⟨"00:05", 5, some 1000⟩ ⟨"00:10", 10, some 800⟩ (by decide) (by decide),
   c8.2 [⟨"00:00", 0, some 1000⟩] [] [⟨some 99, some 99⟩] "00:10" "800"
     (by decide) (by decide) (by decide)⟩

/-- C5 counterexample: the submission with time "9:30" (which the
claim's strict two-digit pattern rejects) and the submission with the
non-numeric concentration "abc" both mutate state, appending a
measurement — the latter with a `NaN` (`none`) concentration. -/
theorem c5_counterexample :
    specStrictTimePattern "9:30" = false ∧
    (addDataPoint ⟨[], []⟩ "9:30" "800").measuredPoints =
      [⟨"9:30", 0, some 800⟩] ∧
    parseIntJS "abc" = none ∧
    (addDataPoint ⟨[], []⟩ "09:30" "abc").measuredPoints =
      [⟨"09:30", 0, none⟩] := by
  refine ⟨by decide, by decide, by decide, by decide⟩

/-- C5 (amended): a submission with an empty time string, an empty
concentration string, or a time string failing the source's pattern
(which also admits single-digit hours) is rejected with the state —
both the measured and the projected sequence — left exactly as it was;
an accepted submission appends exactly one measurement whose
concentration is the `parseInt` of the concentration string, so a
non-numeric concentration is appended as `NaN` rather than
rejected. -/
theorem c5_amended (st : AppState) (t c : String) :
    ((t = "" ∨ c = "" ∨ timePatternTest t = false) → addDataPoint st t c = st) ∧
    (t ≠ "" → c ≠ "" → timePatternTest t = true →
      (addDataPoint st t c).measuredPoints =
        st.measuredPoints ++ [⟨t, normalize t st.measuredPoints, parseIntJS c⟩]) := by
  constructor
  · rintro (h | h | h)
    · unfold addDataPoint
      rw [if_pos (Or.inl h)]
    · unfold addDataPoint
      rw [if_pos (Or.inr h)]
    · unfold addDataPoint
      by_cases he : t = "" ∨ c = ""
      · rw [if_pos he]
      · rw [if_neg he, if_pos h]
  · intro ht hc hpat
    unfold addDataPoint
    rw [if_neg (by tauto), if_neg (by simp [hpat])]

/-- C5 amended witness: the rejection part applied to the malformed
time "25:00" and the acceptance part applied to a valid submission. -/
theorem c5_amended_witness :
    addDataPoint ⟨[], []⟩ "25:00" "800" = ⟨[], []⟩ ∧
    (addDataPoint ⟨[], []⟩ "10:00" "900").measuredPoints =
      [] ++ [⟨"10:00", normalize "10:00" [], parseIntJS "900"⟩] :=
  ⟨(c5_amended ⟨[], []⟩ "25:00" "800").1 (Or.inr (Or.inr (by decide))),
   (c5_amended ⟨[], []⟩ "10:00" "900").2 (by decide) (by decide) (by decide)⟩

/-- A digit character's value lies in 0–9. -/
theorem charVal_bounds (c : Char) (h : isDigitChar c = true) :
    0 ≤ charVal c ∧ charVal c ≤ 9 := by
  simp only [isDigitChar, Bool.and_eq_true, decide_eq_true_eq] at h
  unfold charVal
  omega

/-- A valid hour field's value lies in 0–23. -/
theorem hourOK_bounds (l : List Char) (h : hourOK l = true) :
    0 ≤ digitsVal l ∧ digitsVal l ≤ 23 := by
  match l, h with
  | [d], h =>
    have hd := charVal_bounds d (by simpa [hourOK] using h)
    simp only [digitsVal, List.foldl]
    omega
  | [d1, d2], h =>
    simp only [hourOK, Bool.or_eq_true, Bool.and_eq_true,
      decide_eq_true_eq] at h
    simp only [digitsVal, List.foldl]
    rcases h with ⟨h1, h2⟩ | ⟨h1, h2⟩
    · have hd2 := charVal_bounds d2 h2
      have hd1 : charVal d1 = 0 ∨ charVal d1 = 1 := by
        rcases h1 with h1 | h1 <;> subst h1
        · exact Or.inl (by decide)
        · exact Or.inr (by decide)
      rcases hd1 with hd1 | hd1 <;> rw [hd1] <;> omega
    · subst h1
      rw [show charVal '2' = 2 from by decide]
      unfold charVal
      omega

/-- A valid minute field's value lies in 0–59. -/
theorem minuteOK_bounds (l : List Char) (h : minuteOK l = true) :
    0 ≤ digitsVal l ∧ digitsVal l ≤ 59 := by
  match l, h with
  | [d1, d2], h =>
    simp only [minuteOK, Bool.and_eq_true, decide_eq_true_eq] at h
    obtain ⟨⟨h1a, h1b⟩, h2⟩ := h
    have hd2 := charVal_bounds d2 h2
    simp only [digitsVal, List.foldl]
    unfold charVal
    unfold charVal at hd2
    omega

/-- A wall-clock string accepted by the time pattern parses to a
minute count in 0–1439. -/
theorem timeTotalMinutes_bounds (s : String) (h : timePatternTest s = true) :
    0 ≤ timeTotalMinutes s ∧ timeTotalMinutes s ≤ 1439 := by
  unfold timePatternTest at h
  unfold timeTotalMinutes
  rcases hsp : splitOnColon s.toList with _ | ⟨hp, _ | ⟨mp, rest⟩⟩
  · rw [hsp] at h
    exact absurd h (by simp)
  · rw [hsp] at h
    exact absurd h (by simp)
  · rw [hsp] at h
    rcases rest with _ | ⟨r, rest'⟩
    · simp only [Bool.and_eq_true] at h
      have hh := hourOK_bounds hp h.1
      have hm := minuteOK_bounds mp h.2
      show 0 ≤ digitsVal hp * 60 + digitsVal mp ∧
        digitsVal hp * 60 + digitsVal mp ≤ 1439
      omega
    · exact absurd h (by simp)

/-- On a nonempty prior sequence whose first point has a valid stored
time, `normalize` of a valid time yields a value in 0–1439. -/
theorem normalize_bounds (t : String) (ht : timePatternTest t = true)
    (first : Point) (rest : List Point)
    (hf : timePatternTest first.time = true) :
    0 ≤ normalize t (first :: rest) ∧ normalize t (first :: rest) ≤ 1439 := by
  have h1 := timeTotalMinutes_bounds t ht
  have h2 := timeTotalMinutes_bounds first.time hf
  simp only [normalize]
  split_ifs with h <;> omega

/-- The strengthened state invariant: every stored measurement has a
pattern-valid wall-clock string and elapsed minutes in 0–1439, and a
nonempty sequence starts at elapsed 0. -/
def stateInv (st : AppState) : Prop :=
  (∀ p ∈ st.measuredPoints,
    timePatternTest p.time = true ∧ 0 ≤ p.minutes ∧ p.minutes ≤ 1439) ∧
  (∀ (first : Point) (rest : List Point),
    st.measuredPoints = first :: rest → first.minutes = 0)

/-- `addDataPoint` preserves the state invariant. -/
theorem stateInv_addDataPoint (st : AppState) (t c : String)
    (h : stateInv st) : stateInv (addDataPoint st t c) := by
  by_cases he : t = "" ∨ c = ""
  · unfold addDataPoint
    rw [if_pos he]
    exact h
  · by_cases hp : timePatternTest t = false
    · unfold addDataPoint
      rw [if_neg he, if_pos hp]
      exact h
    · have hpt : timePatternTest t = true := by
        revert hp
        cases timePatternTest t <;> simp
      obtain ⟨hmem, hfirst⟩ := h
      unfold addDataPoint
      rw [if_neg he, if_neg hp]
      constructor
      · intro p hpmem
        simp only [List.mem_append, List.mem_singleton] at hpmem
        rcases hpmem with hin | rfl
        · exact hmem p hin
        · refine ⟨hpt, ?_⟩
          rcases hmp : st.measuredPoints with _ | ⟨first, rest⟩
          · simp [normalize, hmp]
          · have hfv : timePatternTest first.time = true :=
              (hmem first (by rw [hmp]; exact List.mem_cons_self first rest)).1
            exact normalize_bounds t hpt first rest hfv
      · intro f r hEq
        simp only at hEq
        rcases hmp : st.measuredPoints with _ | ⟨first, rest⟩
        · rw [hmp] at hEq
          simp only [List.nil_append, List.cons.injEq] at hEq
          rw [← hEq.1]
          simp [normalize, hmp]
        · rw [hmp] at hEq
          simp only [List.cons_append, List.cons.injEq] at hEq
          rw [← hEq.1]
          exact hfirst first rest hmp

/-- `removeLastPoint` preserves the state invariant. -/
theorem stateInv_removeLastPoint (st : AppState) (h : stateInv st) :
    stateInv (removeLastPoint st) := by
  obtain ⟨hmem, hfirst⟩ := h
  rcases hmp : st.measuredPoints with _ | ⟨a, l⟩
  · have hred : removeLastPoint st = st := by
      unfold removeLastPoint
      rw [hmp]
    rw [hred]
    exact ⟨hmem, hfirst⟩
  · have hred : removeLastPoint st =
        ⟨(a :: l).dropLast,
          if 2 ≤ (a :: l).dropLast.length
          then buildProjectionSegment (a :: l).dropLast else []⟩ := by
      unfold removeLastPoint
      rw [hmp]
    rw [hred]
    constructor
    · intro p hp
      have hsub : p ∈ a :: l := List.dropLast_subset (a :: l) hp
      rw [← hmp] at hsub
      exact hmem p hsub
    · intro f r hEq
      simp only at hEq
      rcases l with _ | ⟨b, l'⟩
      · simp only [List.dropLast_single] at hEq
        exact absurd hEq (by simp)
      · rw [List.dropLast_cons₂] at hEq
        simp only [List.cons.injEq] at hEq
        rw [← hEq.1]
        exact hfirst a (b :: l') hmp

/-- C9: in every state reachable by submissions (valid or not), resets
and removals, each stored measurement's elapsed minutes is an integer
in 0–1439, and whenever the sequence is nonempty its first element has
elapsed minutes exactly 0. -/
theorem c9 (st : AppState) (h : Reachable st) :
    (∀ p ∈ st.measuredPoints, 0 ≤ p.minutes ∧ p.minutes ≤ 1439) ∧
    (∀ (first : Point) (rest : List Point),
      st.measuredPoints = first :: rest → first.minutes = 0) := by
  have hinv : stateInv st := by
    induction h with
    | start => exact ⟨by simp, by simp⟩
    | add st t c _ ih => exact stateInv_addDataPoint st t c ih
    | clear st _ _ => exact ⟨by simp [clearData], by simp [clearData]⟩
    | removeLast st _ ih => exact stateInv_removeLastPoint st ih
  exact ⟨fun p hp => (hinv.1 p hp).2, hinv.2⟩

/-- C9 witness: the invariant applied to the reachable state produced
by two valid submissions that cross midnight. -/
theorem c9_witness :
    (∀ p ∈ (addDataPoint (addDataPoint ⟨[], []⟩ "23:50" "1000")
        "00:10" "900").measuredPoints,
      0 ≤ p.minutes ∧ p.minutes ≤ 1439) ∧
    (∀ (first : Point) (rest : List Point),
      (addDataPoint (addDataPoint ⟨[], []⟩ "23:50" "1000")
          "00:10" "900").measuredPoints = first :: rest →
      first.minutes = 0) :=
  c9 _ (Reachable.add _ "00:10" "900"
    (Reachable.add _ "23:50" "1000" Reachable.start))

end CO2
